import Mathlib

set_option maxRecDepth 40000
set_option maxHeartbeats 1000000

/-!
Verification of the compression-strategy evaluation and selection pipeline of
`mobile_sms_classifier` (files `src/quantization_pipeline.py` and
`train_and_evaluate.py`), shallowly embedded in Lean 4.

Python floats are modelled as rationals (`ℚ`), Python lists as `List`,
Python dicts (which preserve insertion order) as association `List`s, and
Python exceptions as `Except PyErr`.  External effects (TensorFlow Lite
interpreter invocations, wall-clock timing, the trained Keras classifier)
are modelled as oracle parameters; everything the repository's own code
computes from those oracles is translated function by function.
-/

/-- Python exception kinds raised (or catchable) along the pipeline. -/
inductive PyErr where
  | valueError
  | zeroDivisionError
  | conversionError
  | runtimeError
deriving Repr, DecidableEq

/-- Python true division: raises `ZeroDivisionError` on a zero denominator. -/
def pydiv (a b : ℚ) : Except PyErr ℚ :=
  if b = 0 then .error .zeroDivisionError else .ok (a / b)

/-- `True` exactly when an `Except` computation succeeded. -/
def isOkb {ε α : Type} : Except ε α → Bool
  | .ok _ => true
  | .error _ => false

/-- The tokenizer output for one text: the `input_ids` / `attention_mask`
pair fed to the interpreter (`classifier.preprocess_data`). -/
structure ProcInput where
  input_ids : List ℤ
  attention_mask : List ℤ
deriving Repr, DecidableEq

/-- `TFLiteModelInfo` dataclass of `quantization_pipeline.py` (the opaque
`metadata` dict is represented by its `conversion_time_seconds` entry). -/
structure TFLiteModelInfo where
  model_path : String
  size_mb : ℚ
  input_shape : List ℤ
  output_shape : List ℤ
  quantization_type : String
  inference_time_ms : ℚ
  accuracy : ℚ
  conversion_time_seconds : ℚ
deriving Repr, DecidableEq

/-- `QuantizationMetrics` dataclass of `quantization_pipeline.py`. -/
structure QuantizationMetrics where
  original_size_mb : ℚ
  quantized_size_mb : ℚ
  size_reduction_ratio : ℚ
  original_accuracy : ℚ
  quantized_accuracy : ℚ
  accuracy_retention : ℚ
  original_inference_ms : ℚ
  quantized_inference_ms : ℚ
  speedup_ratio : ℚ
  quantization_method : String
deriving Repr, DecidableEq

/-- One entry of the `evaluation_results` dict (insertion-ordered). -/
abbrev MetricsEntry := String × QuantizationMetrics

/-- One step of Python's `min(..., key=lambda x: x[1].quantized_size_mb)`:
the running best is replaced only on a strictly smaller size, so the
earliest entry among ties is kept. -/
def pick_smaller (best x : MetricsEntry) : MetricsEntry :=
  if x.2.quantized_size_mb < best.2.quantized_size_mb then x else best

/-- Python's `min` over an insertion-ordered metrics dict, keyed by
`quantized_size_mb`; raises `ValueError` on an empty sequence. -/
def py_min_by_size : List MetricsEntry → Except PyErr MetricsEntry
  | [] => .error .valueError
  | x :: xs => .ok (xs.foldl pick_smaller x)

/-- The filter of `select_best_quantization`: size at most the threshold and
accuracy retention at least the threshold. -/
def meets_constraints (size_threshold_mb accuracy_threshold : ℚ)
    (p : MetricsEntry) : Bool :=
  decide (p.2.quantized_size_mb ≤ size_threshold_mb) &&
    decide (accuracy_threshold ≤ p.2.accuracy_retention)

/-- `ModelQuantizer.select_best_quantization`: filter to the methods meeting
both constraints; if any remain pick the smallest by size, otherwise fall
back to the globally smallest by size (raising only when the results dict
is empty, where Python's `min` raises `ValueError`). -/
def select_best_quantization (evaluation_results : List MetricsEntry)
    (size_threshold_mb : ℚ := 20) (accuracy_threshold : ℚ := 9/10) :
    Except PyErr String :=
  let valid_methods :=
    evaluation_results.filter (meets_constraints size_threshold_mb accuracy_threshold)
  match valid_methods with
  | [] => do
      let best ← py_min_by_size evaluation_results
      pure best.1
  | v :: vs => .ok ((vs.foldl pick_smaller v).1)

/-- Claim-side reading of the tie-break: an entry is minimal when its size
is at most every entry's size in the list. -/
def is_min_size_of (l : List MetricsEntry) (p : MetricsEntry) : Bool :=
  l.all (fun q => decide (p.2.quantized_size_mb ≤ q.2.quantized_size_mb))

/-- Claim-side selection: the first entry (in insertion order) whose size is
minimal over the whole list. -/
def first_min_by_size (l : List MetricsEntry) : Option MetricsEntry :=
  l.find? (is_min_size_of l)

/-- Concrete metrics record used by the spec's worked scenarios: only
`quantized_size_mb` and `accuracy_retention` drive selection. -/
def scenario_metrics (m : String) (size acc_ret : ℚ) : QuantizationMetrics where
  original_size_mb := 30
  quantized_size_mb := size
  size_reduction_ratio := 30 / size
  original_accuracy := 1
  quantized_accuracy := acc_ret
  accuracy_retention := acc_ret
  original_inference_ms := 50
  quantized_inference_ms := 25
  speedup_ratio := 2
  quantization_method := m

/-- The spec's Scenario A/B candidate set: `dynamic` 8MB/0.97,
`float16` 15MB/0.99, `int8` 3MB/0.85, in insertion order. -/
def scenario_a : List MetricsEntry :=
  [("dynamic", scenario_metrics "dynamic" 8 (97/100)),
   ("float16", scenario_metrics "float16" 15 (99/100)),
   ("int8", scenario_metrics "int8" 3 (85/100))]

/-- The projection of a metrics entry that C9 claims selection depends on:
method name, `quantized_size_mb` and `accuracy_retention`. -/
def sel_view (p : MetricsEntry) : String × ℚ × ℚ :=
  (p.1, p.2.quantized_size_mb, p.2.accuracy_retention)

/-- Two entries agreeing on everything selection is claimed to look at. -/
def SelR (p q : MetricsEntry) : Prop := sel_view p = sel_view q

/-- Scenario-A-shaped metrics with perturbed latency figures: same sizes and
retentions, different benchmark numbers. -/
def scenario_a_lat : List MetricsEntry :=
  [("dynamic", { scenario_metrics "dynamic" 8 (97/100) with
      original_inference_ms := 80, quantized_inference_ms := 11, speedup_ratio := 80/11 }),
   ("float16", { scenario_metrics "float16" 15 (99/100) with
      original_inference_ms := 80, quantized_inference_ms := 13, speedup_ratio := 80/13 }),
   ("int8", { scenario_metrics "int8" 3 (85/100) with
      original_inference_ms := 80, quantized_inference_ms := 7, speedup_ratio := 80/7 })]

/-- Outcome of `benchmark_tflite_model`: the dict of timing statistics it
returns.  `numpy.std` is the square root of `std_inference_time_ms_sq`;
the square is stored because the root is irrational over `ℚ`. -/
structure BenchStats where
  avg_inference_time_ms : ℚ
  min_inference_time_ms : ℚ
  max_inference_time_ms : ℚ
  std_inference_time_ms_sq : ℚ
  total_benchmark_time_s : ℚ
deriving Repr, DecidableEq

/-- Oracle for the TensorFlow Lite interpreter of a saved model and for the
wall clock: `invoke` maps a model path and input tensors to output scores
(or an interpreter failure); `timer` gives the wall-clock duration, in
milliseconds, of the i-th timed inference run on that model. -/
structure TFLiteRuntime where
  invoke : String → ProcInput → Except PyErr (List ℚ)
  timer : String → ℕ → ℚ

/-- `numpy.mean`: sum over length (the empty case, `nan` in numpy, is
never reached because `numpy.min` raises first). -/
def np_mean (l : List ℚ) : ℚ := l.sum / l.length

/-- Mean squared deviation, the square of `numpy.std`. -/
def np_std_sq (l : List ℚ) : ℚ :=
  (l.map (fun x => (x - np_mean l) ^ 2)).sum / l.length

/-- `numpy.min`: raises `ValueError` on an empty array. -/
def np_min : List ℚ → Except PyErr ℚ
  | [] => .error .valueError
  | x :: xs => .ok (xs.foldl min x)

/-- `numpy.max`: raises `ValueError` on an empty array. -/
def np_max : List ℚ → Except PyErr ℚ
  | [] => .error .valueError
  | x :: xs => .ok (xs.foldl max x)

/-- `numpy.argmax` over the output scores: index of the first maximal
entry; raises `ValueError` on an empty array. -/
def np_argmax_go (best : ℚ) (best_idx i : ℕ) : List ℚ → ℕ
  | [] => best_idx
  | x :: xs =>
    if best < x then np_argmax_go x i (i + 1) xs
    else np_argmax_go best best_idx (i + 1) xs

def np_argmax : List ℚ → Except PyErr ℕ
  | [] => .error .valueError
  | x :: xs => .ok (np_argmax_go x 0 1 xs)

/-- `ModelQuantizer.benchmark_tflite_model`: preprocess the first test text
(or the literal `"Test message"` when the list is empty) once, then run
`num_runs` strictly sequential timed inferences on that one input,
recording each run's wall-clock milliseconds, and aggregate mean, min,
max, standard deviation and total time.  Each loop iteration is recorded
as the pair (input fed to the interpreter, measured duration). -/
def benchmark_tflite_model (rt : TFLiteRuntime) (preprocess : String → ProcInput)
    (model_path : String) (test_texts : List String) (num_runs : ℕ := 100) :
    Except PyErr BenchStats := do
  let sample_text := test_texts.headD "Test message"
  let processed := preprocess sample_text
  let runs ← (List.range num_runs).mapM (fun i => do
    let _ ← rt.invoke model_path processed
    pure (processed, rt.timer model_path i))
  let times := runs.map Prod.snd
  let avg := np_mean times
  let mn ← np_min times
  let mx ← np_max times
  pure { avg_inference_time_ms := avg,
         min_inference_time_ms := mn,
         max_inference_time_ms := mx,
         std_inference_time_ms_sq := np_std_sq times,
         total_benchmark_time_s := times.sum / 1000 }

/-- The prediction loop of `ModelQuantizer._evaluate_tflite_accuracy`:
iterate over `zip(test_texts, test_labels)`, incrementing the counter when
the argmax of the interpreter output equals the true label. -/
def evaluate_tflite_accuracy_loop (rt : TFLiteRuntime)
    (preprocess : String → ProcInput) (model_path : String) :
    List (String × ℤ) → ℕ → Except PyErr ℕ
  | [], correct_predictions => .ok correct_predictions
  | (text, true_label) :: rest, correct_predictions => do
    let output_data ← rt.invoke model_path (preprocess text)
    let predicted_label ← np_argmax output_data
    evaluate_tflite_accuracy_loop rt preprocess model_path rest
      (if (predicted_label : ℤ) = true_label then correct_predictions + 1
       else correct_predictions)

/-- `ModelQuantizer._evaluate_tflite_accuracy`: correct count over the
zipped pairs divided by the *full* length of `test_texts` (Python `/`,
raising `ZeroDivisionError` when the text list is empty). -/
def evaluate_tflite_accuracy (rt : TFLiteRuntime)
    (preprocess : String → ProcInput) (model_path : String)
    (test_texts : List String) (test_labels : List ℤ) : Except PyErr ℚ := do
  let correct ← evaluate_tflite_accuracy_loop rt preprocess model_path
    (test_texts.zip test_labels) 0
  pydiv (correct : ℚ) (test_texts.length : ℚ)

/-- The per-strategy loop of `ModelQuantizer.evaluate_quantized_models`.
There is no try/except in this loop: any failure of benchmarking,
accuracy evaluation or the ratio divisions propagates immediately. -/
def evaluate_quantized_models_loop (rt : TFLiteRuntime)
    (preprocess : String → ProcInput)
    (original_size original_accuracy original_inference_time : ℚ)
    (test_texts : List String) (test_labels : List ℤ) :
    List (String × TFLiteModelInfo) → List MetricsEntry →
      Except PyErr (List MetricsEntry)
  | [], evaluation_results => .ok evaluation_results
  | (method, model_info) :: rest, evaluation_results => do
    let benchmark_results ← benchmark_tflite_model rt preprocess
      model_info.model_path (test_texts.take 10)
    let quantized_accuracy ← evaluate_tflite_accuracy rt preprocess
      model_info.model_path test_texts test_labels
    let size_reduction ← pydiv original_size model_info.size_mb
    let accuracy_retention ← pydiv quantized_accuracy original_accuracy
    let speedup ← pydiv original_inference_time
      benchmark_results.avg_inference_time_ms
    evaluate_quantized_models_loop rt preprocess original_size
      original_accuracy original_inference_time test_texts test_labels rest
      (evaluation_results ++ [(method,
        { original_size_mb := original_size,
          quantized_size_mb := model_info.size_mb,
          size_reduction_ratio := size_reduction,
          original_accuracy := original_accuracy,
          quantized_accuracy := quantized_accuracy,
          accuracy_retention := accuracy_retention,
          original_inference_ms := original_inference_time,
          quantized_inference_ms := benchmark_results.avg_inference_time_ms,
          speedup_ratio := speedup,
          quantization_method := method })])

/-- `ModelQuantizer.evaluate_quantized_models`: the baseline size and the
baseline (accuracy, mean latency) pair — produced by the classifier's own
`_calculate_model_size` and `evaluate_model`, modelled as oracle inputs —
are bound once, before the loop, and the same values are used for every
strategy's ratios. -/
def evaluate_quantized_models (rt : TFLiteRuntime)
    (preprocess : String → ProcInput) (calc_model_size : ℚ)
    (baseline_eval : ℚ × ℚ)
    (quantized_models : List (String × TFLiteModelInfo))
    (test_texts : List String) (test_labels : List ℤ) :
    Except PyErr (List MetricsEntry) :=
  let original_size := calc_model_size
  let original_accuracy := baseline_eval.1
  let original_inference_time := baseline_eval.2
  evaluate_quantized_models_loop rt preprocess original_size
    original_accuracy original_inference_time test_texts test_labels
    quantized_models []

/-- `ModelQuantizer.quantize_int8` together with the list of conversion
attempts it makes, each attempt labelled by its `use_fallback` flag.
`convert b` is the outcome of `converter.convert()` under flag `b`.  The
Python code recurses with `use_fallback=True` on a strict-attempt failure;
since that call makes exactly one further attempt, it is inlined as
`(convert true, [false, true])`. -/
def quantize_int8_run (convert : Bool → Except PyErr TFLiteModelInfo) :
    Bool → Except PyErr TFLiteModelInfo × List Bool
  | true => (convert true, [true])
  | false =>
    match convert false with
    | .ok info => (.ok info, [false])
    | .error _ => (convert true, [false, true])

/-- `ModelQuantizer.quantize_int8`: result only. -/
def quantize_int8 (convert : Bool → Except PyErr TFLiteModelInfo)
    (use_fallback : Bool := true) : Except PyErr TFLiteModelInfo :=
  (quantize_int8_run convert use_fallback).1

/-- The attempt order of `ModelQuantizer.quantize_all_methods`. -/
def QUANTIZE_ALL_ORDER : List String := ["dynamic", "float16", "int8"]

/-- `ModelQuantizer.quantize_all_methods`: try dynamic, float16 and int8
(with fallback) in that order; each conversion sits in its own try/except,
so a failing strategy is skipped and the loop continues.  `convert s` is
the outcome of the strategy-specific conversion call for `s`. -/
def quantize_all_methods (convert : String → Except PyErr TFLiteModelInfo) :
    List (String × TFLiteModelInfo) :=
  let results : List (String × TFLiteModelInfo) := []
  let results := match convert "dynamic" with
    | .ok info => results ++ [("dynamic", info)]
    | .error _ => results
  let results := match convert "float16" with
    | .ok info => results ++ [("float16", info)]
    | .error _ => results
  let results := match convert "int8" with
    | .ok info => results ++ [("int8", info)]
    | .error _ => results
  results

/-- `TrainingPipeline.quantize_model` line 142: the calibration corpus is
the Python slice `data['train_texts'][:500]` — a plain list slice with no
length check and no failure path. -/
def calibration_texts (train_texts : List String) : List String :=
  train_texts.take 500

/-- `classifier.preprocess_data` over a list of texts: one tokenized
input per text (tokenization itself is the oracle `preprocess`). -/
def preprocess_data (preprocess : String → ProcInput) (texts : List String) :
    List ProcInput :=
  texts.map preprocess

/-- Batching loop of `create_representative_dataset`'s generator
(`for i in range(0, len(texts), batch_size)`), fuelled by the list length
(enough fuel whenever the stride is at least 1). -/
def chunksGo {α : Type} (n : ℕ) : ℕ → List α → List (List α)
  | _, [] => []
  | 0, _ :: _ => []
  | fuel + 1, x :: xs => ((x :: xs).take n) :: chunksGo n fuel ((x :: xs).drop n)

def pyChunks {α : Type} (n : ℕ) (l : List α) : List (List α) :=
  chunksGo n l.length l

/-- `ModelQuantizer.create_representative_dataset`: preprocess all the
texts and yield them in consecutive batches.  There is no size check of
any kind; the only failure Python could raise is `range()`'s rejection of
a zero stride. -/
def create_representative_dataset (preprocess : String → ProcInput)
    (texts : List String) (batch_size : ℕ := 1) :
    Except PyErr (List (List ProcInput)) :=
  let processed := preprocess_data preprocess texts
  if batch_size = 0 then .error .valueError
  else .ok (pyChunks batch_size processed)

/-- JSON scalar values appearing in the quantization report's summary. -/
inductive JVal where
  | num (q : ℚ)
  | str (s : String)
  | strs (l : List String)
  | null
deriving Repr, DecidableEq

/-- The report dict written by `create_quantization_report`, with each
JSON object as an insertion-ordered association list. -/
structure QReport where
  summary : List (String × JVal)
  detailed_results : List (String × List (String × ℚ))
  performance_comparison : List (String × JVal)
deriving Repr, DecidableEq

/-- One step of Python's `max(..., key=lambda k: ....accuracy_retention)`:
the running best is replaced only on a strictly larger retention. -/
def pick_larger_retention (best x : MetricsEntry) : MetricsEntry :=
  if x.2.accuracy_retention > best.2.accuracy_retention then x else best

/-- `ModelQuantizer.create_quantization_report`: the summary dict is
created with exactly six keys and, when the results map is non-empty,
filled from the first entry's baseline figures and the per-key best
methods; `detailed_results` gets one entry per evaluated method. -/
def create_quantization_report (evaluation_results : List MetricsEntry) :
    QReport :=
  match evaluation_results with
  | [] =>
    { summary := [("original_model_size_mb", .null),
                  ("original_accuracy", .null),
                  ("quantization_methods_tested", .strs []),
                  ("best_method_by_size", .null),
                  ("best_method_by_accuracy", .null),
                  ("recommendation", .null)],
      detailed_results := [],
      performance_comparison := [] }
  | first :: rest =>
    let best_size := (rest.foldl pick_smaller first).1
    let best_accuracy := (rest.foldl pick_larger_retention first).1
    { summary := [("original_model_size_mb", .num first.2.original_size_mb),
                  ("original_accuracy", .num first.2.original_accuracy),
                  ("quantization_methods_tested",
                    .strs ((first :: rest).map Prod.fst)),
                  ("best_method_by_size", .str best_size),
                  ("best_method_by_accuracy", .str best_accuracy),
                  ("recommendation", .null)],
      detailed_results := (first :: rest).map (fun p => (p.1,
        [("quantized_size_mb", p.2.quantized_size_mb),
         ("size_reduction_ratio", p.2.size_reduction_ratio),
         ("quantized_accuracy", p.2.quantized_accuracy),
         ("accuracy_retention", p.2.accuracy_retention),
         ("inference_time_ms", p.2.quantized_inference_ms),
         ("speedup_ratio", p.2.speedup_ratio)])),
      performance_comparison := [] }

/-- `TrainingPipeline.quantize_model`: slice the calibration corpus,
convert all strategies (failures caught per strategy), evaluate the
successful candidates (failures NOT caught), select the best method with
`accuracy_threshold = 0.90`, and build the report.  `convert cal s` is the
conversion outcome of strategy `s` given calibration corpus `cal`. -/
def quantize_model_pipeline
    (convert : List String → String → Except PyErr TFLiteModelInfo)
    (rt : TFLiteRuntime) (preprocess : String → ProcInput)
    (calc_model_size : ℚ) (baseline_eval : ℚ × ℚ)
    (train_texts test_texts : List String) (test_labels : List ℤ)
    (target_size_mb : ℚ) : Except PyErr (String × QReport) := do
  let calibration := calibration_texts train_texts
  let quantized_models := quantize_all_methods (convert calibration)
  let evaluation_results ← evaluate_quantized_models rt preprocess
    calc_model_size baseline_eval quantized_models
    (test_texts.take 100) (test_labels.take 100)
  let best_method ← select_best_quantization evaluation_results
    target_size_mb (9/10)
  pure (best_method, create_quantization_report evaluation_results)

/-- A converter whose strict and fallback attempts both fail. -/
def conv_both_fail : Bool → Except PyErr TFLiteModelInfo :=
  fun _ => .error .conversionError

/-- A fixed tokenization oracle for concrete runs. -/
def preprocess0 : String → ProcInput := fun _ => ⟨[0], [0]⟩

/-- Candidate info for a converted dynamic-range model. -/
def info_dyn : TFLiteModelInfo where
  model_path := "models/quantized/mobile_classifier_dynamic.tflite"
  size_mb := 8
  input_shape := [1]
  output_shape := [4]
  quantization_type := "dynamic"
  inference_time_ms := 0
  accuracy := 0
  conversion_time_seconds := 1

/-- Candidate info for a converted float16 model. -/
def info_f16 : TFLiteModelInfo where
  model_path := "models/quantized/mobile_classifier_float16.tflite"
  size_mb := 15
  input_shape := [1]
  output_shape := [4]
  quantization_type := "float16"
  inference_time_ms := 0
  accuracy := 0
  conversion_time_seconds := 1

/-- A runtime whose interpreter fails only for the dynamic model's path. -/
def rt_bench_fail : TFLiteRuntime where
  invoke := fun p _ =>
    if p = "models/quantized/mobile_classifier_dynamic.tflite" then
      .error .runtimeError
    else .ok [1, 0]
  timer := fun _ _ => 2

instance exceptDecidableEq {ε α : Type} [DecidableEq ε] [DecidableEq α] :
    DecidableEq (Except ε α) := fun x y =>
  match x, y with
  | .ok a, .ok b => decidable_of_iff (a = b) (by simp)
  | .error e, .error f => decidable_of_iff (e = f) (by simp)
  | .ok _, .error _ => isFalse (by simp)
  | .error _, .ok _ => isFalse (by simp)

/-- The six keys of the report's summary dict, in insertion order. -/
def summary_keys : List String :=
  ["original_model_size_mb", "original_accuracy",
   "quantization_methods_tested", "best_method_by_size",
   "best_method_by_accuracy", "recommendation"]

/-- Scenario B with integer-valued percentages: `dynamic` 8MB/97,
`float16` 15MB/99, `int8` 3MB/85 against thresholds (5MB, 90). -/
def scenario_b_pct : List MetricsEntry :=
  [("dynamic", scenario_metrics "dynamic" 8 97),
   ("float16", scenario_metrics "float16" 15 99),
   ("int8", scenario_metrics "int8" 3 85)]

/-- A converter succeeding for every strategy. -/
def conv_all_ok : String → Except PyErr TFLiteModelInfo := fun s =>
  .ok { model_path := s, size_mb := 1, input_shape := [1],
        output_shape := [4], quantization_type := s,
        inference_time_ms := 0, accuracy := 0, conversion_time_seconds := 1 }

/-- A runtime whose interpreter always fails. -/
def rt_invoke_fail : TFLiteRuntime where
  invoke := fun _ _ => .error .runtimeError
  timer := fun _ _ => 1

/-- A runtime whose interpreter always reports class-1 scores. -/
def rt_acc : TFLiteRuntime where
  invoke := fun _ _ => .ok [0, 1]
  timer := fun _ _ => 1

/-- A 400-item calibration corpus. -/
def corpus400 : List String := List.replicate 400 "sms"

/-- What C3 asserts of every evaluated strategy: the stored baselines are
the once-computed run-level baselines, and each ratio is exactly the
corresponding quotient. -/
def baseline_consistent (cs oa oms : ℚ) (p : MetricsEntry) : Prop :=
  p.2.original_size_mb = cs ∧
  p.2.original_accuracy = oa ∧
  p.2.original_inference_ms = oms ∧
  p.2.quantized_size_mb ≠ 0 ∧
  p.2.size_reduction_ratio = cs / p.2.quantized_size_mb ∧
  p.2.accuracy_retention = p.2.quantized_accuracy / oa ∧
  p.2.speedup_ratio = oms / p.2.quantized_inference_ms

/-- A runtime with perfect class-1 answers and a constant 2ms clock. -/
def rt_const2 : TFLiteRuntime where
  invoke := fun _ _ => .ok [0, 1]
  timer := fun _ _ => 2

/-- A converted 6MB candidate. -/
def info6 : TFLiteModelInfo where
  model_path := "models/quantized/mobile_classifier_dynamic.tflite"
  size_mb := 6
  input_shape := [1]
  output_shape := [4]
  quantization_type := "dynamic"
  inference_time_ms := 0
  accuracy := 0
  conversion_time_seconds := 1

/-- The metrics the concrete run below produces for `info6`. -/
def c3_metrics : QuantizationMetrics where
  original_size_mb := 30
  quantized_size_mb := 6
  size_reduction_ratio := 30 / 6
  original_accuracy := 1
  quantized_accuracy := 1 / 1
  accuracy_retention := 1 / 1 / 1
  original_inference_ms := 50
  quantized_inference_ms := 2
  speedup_ratio := 50 / 2
  quantization_method := "dynamic"

theorem pick_smaller_le_left (a b : MetricsEntry) :
    (pick_smaller a b).2.quantized_size_mb ≤ a.2.quantized_size_mb := by
  by_cases h : b.2.quantized_size_mb < a.2.quantized_size_mb <;>
    simp [pick_smaller, h] <;> linarith

theorem pick_smaller_le_right (a b : MetricsEntry) :
    (pick_smaller a b).2.quantized_size_mb ≤ b.2.quantized_size_mb := by
  by_cases h : b.2.quantized_size_mb < a.2.quantized_size_mb <;>
    simp [pick_smaller, h] <;> linarith

theorem foldl_pick_mem (xs : List MetricsEntry) (x : MetricsEntry) :
    xs.foldl pick_smaller x ∈ x :: xs := by
  induction xs generalizing x with
  | nil => simp [List.foldl]
  | cons y ys ih =>
    rw [List.foldl_cons]
    by_cases hc : y.2.quantized_size_mb < x.2.quantized_size_mb
    · have hp : pick_smaller x y = y := by simp [pick_smaller, hc]
      rw [hp]
      rcases List.mem_cons.mp (ih y) with h' | h'
      · rw [h']; simp
      · simp [List.mem_cons, h']
    · have hp : pick_smaller x y = x := by simp [pick_smaller, hc]
      rw [hp]
      rcases List.mem_cons.mp (ih x) with h' | h'
      · rw [h']; simp
      · simp [List.mem_cons, h']

theorem foldl_pick_le (xs : List MetricsEntry) (x : MetricsEntry) :
    ∀ q ∈ x :: xs,
      (xs.foldl pick_smaller x).2.quantized_size_mb ≤ q.2.quantized_size_mb := by
  induction xs generalizing x with
  | nil =>
    intro q hq
    rcases List.mem_cons.mp hq with h | h
    · subst h; simp [List.foldl]
    · simp at h
  | cons y ys ih =>
    intro q hq
    rw [List.foldl_cons]
    have hhead := ih (pick_smaller x y) (pick_smaller x y) (by simp)
    rcases List.mem_cons.mp hq with h | h
    · rw [h]
      exact le_trans hhead (pick_smaller_le_left x y)
    · rcases List.mem_cons.mp h with h' | h'
      · rw [h']
        exact le_trans hhead (pick_smaller_le_right x y)
      · exact ih (pick_smaller x y) q (by simp [List.mem_cons, h'])

theorem foldl_pick_decomp (xs : List MetricsEntry) (x : MetricsEntry) :
    ∃ l1 l2, x :: xs = l1 ++ (xs.foldl pick_smaller x) :: l2 ∧
      ∀ q ∈ l1,
        (xs.foldl pick_smaller x).2.quantized_size_mb < q.2.quantized_size_mb := by
  induction xs generalizing x with
  | nil => exact ⟨[], [], rfl, by simp⟩
  | cons y ys ih =>
    by_cases hc : y.2.quantized_size_mb < x.2.quantized_size_mb
    · obtain ⟨l1, l2, heq, hlt⟩ := ih y
      refine ⟨x :: l1, l2, ?_, ?_⟩
      · simp only [List.foldl_cons, pick_smaller, hc, if_pos]
        simpa using congrArg (List.cons x) heq
      · intro q hq
        rcases List.mem_cons.mp hq with h | h
        · subst h
          have hle := foldl_pick_le ys y y (by simp)
          simp only [List.foldl_cons, pick_smaller, hc, if_pos]
          linarith
        · have := hlt q h
          simpa [List.foldl_cons, pick_smaller, hc] using this
    · obtain ⟨l1, l2, heq, hlt⟩ := ih x
      have hfold : (y :: ys).foldl pick_smaller x = ys.foldl pick_smaller x := by
        simp [List.foldl_cons, pick_smaller, hc]
      have hxy : x.2.quantized_size_mb ≤ y.2.quantized_size_mb := by
        push_neg at hc; exact hc
      cases l1 with
      | nil =>
        simp only [List.nil_append, List.cons.injEq] at heq
        refine ⟨[], y :: ys, ?_, by simp⟩
        rw [hfold, ← heq.1]
        simp
      | cons b l1' =>
        simp only [List.cons_append, List.cons.injEq] at heq
        obtain ⟨hbx, hys⟩ := heq
        refine ⟨x :: y :: l1', l2, ?_, ?_⟩
        · rw [hfold]
          conv_lhs => rw [hys]
          simp
        · intro q hq
          have hx : (ys.foldl pick_smaller x).2.quantized_size_mb <
              x.2.quantized_size_mb := by
            have := hlt b (by simp)
            rw [← hbx] at this; exact this
          rcases List.mem_cons.mp hq with h | h
          · subst h; rw [hfold]; exact hx
          · rcases List.mem_cons.mp h with h' | h'
            · subst h'; rw [hfold]; linarith
            · have := hlt q (by simp [h'])
              rw [hfold]; exact this

theorem find?_over_decomp {α : Type} (p : α → Bool) (l1 : List α) (m : α)
    (l2 : List α) (hm : p m = true) (h1 : ∀ q ∈ l1, p q = false) :
    (l1 ++ m :: l2).find? p = some m := by
  induction l1 with
  | nil => simp [List.find?_cons, hm]
  | cons a l1' ih =>
    have ha : p a = false := h1 a (by simp)
    simp only [List.cons_append, List.find?_cons, ha]
    exact ih (fun q hq => h1 q (by simp [hq]))

theorem first_min_eq_foldl (x : MetricsEntry) (xs : List MetricsEntry) :
    first_min_by_size (x :: xs) = some (xs.foldl pick_smaller x) := by
  obtain ⟨l1, l2, heq, hlt⟩ := foldl_pick_decomp xs x
  have hmem : ∀ q ∈ l1, q ∈ x :: xs := by
    intro q hq; rw [heq]; simp [hq]
  have hmin : is_min_size_of (x :: xs) (xs.foldl pick_smaller x) = true := by
    rw [is_min_size_of, List.all_eq_true]
    intro q hq
    simpa using foldl_pick_le xs x q hq
  have hfalse : ∀ q ∈ l1, is_min_size_of (x :: xs) q = false := by
    intro q hq
    rw [is_min_size_of]
    refine List.all_eq_false.mpr ⟨xs.foldl pick_smaller x, foldl_pick_mem xs x, ?_⟩
    simpa using not_le.mpr (hlt q hq)
  rw [heq] at hmin hfalse
  rw [first_min_by_size, heq]
  exact find?_over_decomp _ l1 _ l2 hmin hfalse

/-- C1: for a non-empty metrics map, `select_best_quantization` filters to
the methods with `quantized_size_mb ≤ size_threshold_mb` and
`accuracy_retention ≥ accuracy_threshold`; if the filtered set is non-empty
it returns the first entry (in map insertion order) of minimal
`quantized_size_mb` among the filtered set, and otherwise the first entry
of globally minimal `quantized_size_mb` among all candidates. -/
theorem select_picks_first_minimum
    (res : List MetricsEntry) (s a : ℚ) (h : res ≠ []) :
    ((res.filter (meets_constraints s a)) ≠ [] →
      ∃ p, first_min_by_size (res.filter (meets_constraints s a)) = some p ∧
        select_best_quantization res s a = .ok p.1) ∧
    ((res.filter (meets_constraints s a)) = [] →
      ∃ p, first_min_by_size res = some p ∧
        select_best_quantization res s a = .ok p.1) := by
  cases hval : res.filter (meets_constraints s a) with
  | nil =>
    refine ⟨fun hne => absurd rfl hne, fun _ => ?_⟩
    cases res with
    | nil => exact absurd rfl h
    | cons x xs =>
      refine ⟨xs.foldl pick_smaller x, first_min_eq_foldl x xs, ?_⟩
      simp [select_best_quantization, hval, py_min_by_size]
  | cons v vs =>
    refine ⟨fun _ => ?_, fun heq => by simp [hval] at heq⟩
    refine ⟨vs.foldl pick_smaller v, first_min_eq_foldl v vs, ?_⟩
    simp [select_best_quantization, hval]

/-- Witness for C1 at the spec's Scenario A data with the default
constraints (20MB, 0.90). -/
theorem select_picks_first_minimum_witness :
    scenario_a ≠ [] ∧
    (((scenario_a.filter (meets_constraints 20 (9/10))) ≠ [] →
      ∃ p, first_min_by_size (scenario_a.filter (meets_constraints 20 (9/10))) = some p ∧
        select_best_quantization scenario_a 20 (9/10) = .ok p.1) ∧
     ((scenario_a.filter (meets_constraints 20 (9/10))) = [] →
      ∃ p, first_min_by_size scenario_a = some p ∧
        select_best_quantization scenario_a 20 (9/10) = .ok p.1)) :=
  ⟨by decide, select_picks_first_minimum scenario_a 20 (9/10) (by decide)⟩

theorem selR_fields {p q : MetricsEntry} (h : SelR p q) :
    p.1 = q.1 ∧ p.2.quantized_size_mb = q.2.quantized_size_mb ∧
      p.2.accuracy_retention = q.2.accuracy_retention := by
  simp only [SelR, sel_view, Prod.mk.injEq] at h
  exact h

theorem selR_meets (s a : ℚ) {p q : MetricsEntry} (h : SelR p q) :
    meets_constraints s a p = meets_constraints s a q := by
  obtain ⟨-, h2, h3⟩ := selR_fields h
  simp [meets_constraints, h2, h3]

theorem selR_pick {p q p' q' : MetricsEntry} (h : SelR p q) (h' : SelR p' q') :
    SelR (pick_smaller p p') (pick_smaller q q') := by
  obtain ⟨-, h2, h3⟩ := selR_fields h
  obtain ⟨-, h2', h3'⟩ := selR_fields h'
  by_cases hc : p'.2.quantized_size_mb < p.2.quantized_size_mb
  · have hc' : q'.2.quantized_size_mb < q.2.quantized_size_mb := by
      rw [← h2, ← h2']; exact hc
    simpa [pick_smaller, hc, hc'] using h'
  · have hc' : ¬ q'.2.quantized_size_mb < q.2.quantized_size_mb := by
      rw [← h2, ← h2']; exact hc
    simpa [pick_smaller, hc, hc'] using h

theorem selR_foldl {l1 l2 : List MetricsEntry} (h : List.Forall₂ SelR l1 l2) :
    ∀ {x y : MetricsEntry}, SelR x y →
      SelR (l1.foldl pick_smaller x) (l2.foldl pick_smaller y) := by
  induction h with
  | nil => intro x y hxy; simpa using hxy
  | cons hab ht ih =>
    intro x y hxy
    simp only [List.foldl_cons]
    exact ih (selR_pick hxy hab)

theorem selR_filter (s a : ℚ) {l1 l2 : List MetricsEntry}
    (h : List.Forall₂ SelR l1 l2) :
    List.Forall₂ SelR (l1.filter (meets_constraints s a))
      (l2.filter (meets_constraints s a)) := by
  induction h with
  | nil => simp
  | @cons p q t1 t2 hab ht ih =>
    cases hmp : meets_constraints s a p with
    | false =>
      have hmq : meets_constraints s a q = false := by
        rw [← selR_meets s a hab]; exact hmp
      simpa [List.filter_cons, hmp, hmq] using ih
    | true =>
      have hmq : meets_constraints s a q = true := by
        rw [← selR_meets s a hab]; exact hmp
      simpa [List.filter_cons, hmp, hmq] using List.Forall₂.cons hab ih

/-- C9: the selection outcome depends only on each candidate's
`quantized_size_mb` and `accuracy_retention` (and the method names/order):
two metrics maps related entrywise by `SelR` — which leaves every latency
and speedup field unconstrained — produce identical selection results. -/
theorem select_best_ignores_latency (r1 r2 : List MetricsEntry) (s a : ℚ)
    (h : List.Forall₂ SelR r1 r2) :
    select_best_quantization r1 s a = select_best_quantization r2 s a := by
  have hf := selR_filter s a h
  cases hA : r1.filter (meets_constraints s a) with
  | nil =>
    rw [hA] at hf
    have hB : r2.filter (meets_constraints s a) = [] :=
      List.forall₂_nil_left_iff.mp hf
    cases h with
    | nil => rfl
    | @cons x y t1 t2 hxy ht =>
      have h1 := (selR_fields (selR_foldl ht hxy)).1
      simp [select_best_quantization, hA, hB, py_min_by_size, h1]
  | cons v vs =>
    rw [hA] at hf
    obtain ⟨w, ws, hvw, hvsws, hB⟩ := List.forall₂_cons_left_iff.mp hf
    have h1 := (selR_fields (selR_foldl hvsws hvw)).1
    simp [select_best_quantization, hA, hB, h1]

/-- Witness for C9: the Scenario A map and its latency-perturbed variant
select the same method. -/
theorem select_best_ignores_latency_witness :
    select_best_quantization scenario_a 20 (9/10) =
      select_best_quantization scenario_a_lat 20 (9/10) :=
  select_best_ignores_latency scenario_a scenario_a_lat 20 (9/10)
    (List.Forall₂.cons rfl
      (List.Forall₂.cons rfl
        (List.Forall₂.cons rfl List.Forall₂.nil)))

/-- Reduction of an `Except` bind on a success, stated over the
do-notation desugaring so it can be used with `rw`. -/
theorem bind_ok_eq {ε α β : Type} (a : α) (f : α → Except ε β) :
    (do let x ← (Except.ok a : Except ε α); f x) = f a := rfl

/-- Reduction of an `Except` bind on a failure. -/
theorem bind_error_eq {ε α β : Type} (e : ε) (f : α → Except ε β) :
    (do let x ← (Except.error e : Except ε α); f x) = Except.error e := rfl

/-- C6: for the int8 strategy with a declared fallback, a conversion
failure of the strict (`use_fallback=False`) attempt triggers exactly one
automatic retry with the relaxed (`use_fallback=True`) variant, whose
outcome — success or the retry's own error — is returned unchanged; the
attempt trace is exactly `[false, true]`, so no second retry occurs. -/
theorem quantize_int8_retries_exactly_once
    (convert : Bool → Except PyErr TFLiteModelInfo) (e : PyErr)
    (h : convert false = .error e) :
    quantize_int8 convert false = convert true ∧
    (quantize_int8_run convert false).2 = [false, true] := by
  constructor <;> simp [quantize_int8, quantize_int8_run, h]

/-- Witness for C6: with both attempts failing, the result is the fallback
attempt's error and exactly two attempts were made. -/
theorem quantize_int8_retries_exactly_once_witness :
    conv_both_fail false = .error .conversionError ∧
    (quantize_int8 conv_both_fail false = conv_both_fail true ∧
     (quantize_int8_run conv_both_fail false).2 = [false, true]) :=
  ⟨rfl, quantize_int8_retries_exactly_once conv_both_fail .conversionError rfl⟩

/-- C7 (amended): a conversion failure of one strategy is isolated — the
results map of `quantize_all_methods` is exactly the successful strategies
in catalog order, each with its own conversion's info — and the report
lists exactly the evaluated methods in `detailed_results` and in the
summary's `quantization_methods_tested`.  (Benchmark/evaluation failures,
by contrast, are not isolated: see the counterexample.) -/
theorem quantize_all_methods_isolation
    (convert : String → Except PyErr TFLiteModelInfo) :
    quantize_all_methods convert =
      QUANTIZE_ALL_ORDER.filterMap
        (fun s => (convert s).toOption.map (fun i => (s, i))) ∧
    ∀ res : List MetricsEntry,
      (create_quantization_report res).detailed_results.map Prod.fst =
        res.map Prod.fst ∧
      ("quantization_methods_tested", JVal.strs (res.map Prod.fst)) ∈
        (create_quantization_report res).summary := by
  constructor
  · cases h1 : convert "dynamic" <;> cases h2 : convert "float16" <;>
      cases h3 : convert "int8" <;>
      simp [quantize_all_methods, QUANTIZE_ALL_ORDER, h1, h2, h3,
        Except.toOption]
  · intro res
    cases res with
    | nil => simp [create_quantization_report]
    | cons f r =>
      constructor
      · simp [create_quantization_report, List.map_map]
      · simp [create_quantization_report]

/-- `mapM` over `Except` succeeds pointwise. -/
theorem mapM_ok_of_all {α β : Type} (f : α → Except PyErr β) (g : α → β)
    (l : List α) (h : ∀ x ∈ l, f x = .ok (g x)) :
    l.mapM f = .ok (l.map g) := by
  induction l with
  | nil => rfl
  | cons a t ih =>
    rw [List.mapM_cons, h a (by simp)]
    rw [bind_ok_eq]
    rw [ih (fun x hx => h x (by simp [hx]))]
    rw [bind_ok_eq]
    rfl

theorem foldl_min_mem (xs : List ℚ) (x : ℚ) : xs.foldl min x ∈ x :: xs := by
  induction xs generalizing x with
  | nil => simp
  | cons y ys ih =>
    rw [List.foldl_cons]
    rcases List.mem_cons.mp (ih (min x y)) with h | h
    · rcases min_choice x y with hm | hm <;> rw [h, hm]
      · simp
      · simp
    · simp [List.mem_cons, h]

theorem foldl_min_le (xs : List ℚ) (x : ℚ) :
    ∀ q ∈ x :: xs, xs.foldl min x ≤ q := by
  induction xs generalizing x with
  | nil =>
    intro q hq
    rcases List.mem_cons.mp hq with h | h
    · subst h; simp
    · simp at h
  | cons y ys ih =>
    intro q hq
    rw [List.foldl_cons]
    have hhead := ih (min x y) (min x y) (by simp)
    rcases List.mem_cons.mp hq with h | h
    · rw [h]; exact le_trans hhead (min_le_left x y)
    · rcases List.mem_cons.mp h with h' | h'
      · rw [h']; exact le_trans hhead (min_le_right x y)
      · exact ih (min x y) q (by simp [List.mem_cons, h'])

theorem foldl_max_mem (xs : List ℚ) (x : ℚ) : xs.foldl max x ∈ x :: xs := by
  induction xs generalizing x with
  | nil => simp
  | cons y ys ih =>
    rw [List.foldl_cons]
    rcases List.mem_cons.mp (ih (max x y)) with h | h
    · rcases max_choice x y with hm | hm <;> rw [h, hm]
      · simp
      · simp
    · simp [List.mem_cons, h]

theorem foldl_max_le (xs : List ℚ) (x : ℚ) :
    ∀ q ∈ x :: xs, q ≤ xs.foldl max x := by
  induction xs generalizing x with
  | nil =>
    intro q hq
    rcases List.mem_cons.mp hq with h | h
    · subst h; simp
    · simp at h
  | cons y ys ih =>
    intro q hq
    rw [List.foldl_cons]
    have hhead := ih (max x y) (max x y) (by simp)
    rcases List.mem_cons.mp hq with h | h
    · rw [h]; exact le_trans (le_max_left x y) hhead
    · rcases List.mem_cons.mp h with h' | h'
      · rw [h']; exact le_trans (le_max_right x y) hhead
      · exact ih (max x y) q (by simp [List.mem_cons, h'])

theorem foldl_min_self (n : ℕ) (x : ℚ) :
    (List.replicate n x).foldl min x = x := by
  induction n with
  | zero => rfl
  | succ k ih => simp [List.replicate_succ, List.foldl_cons, min_self, ih]

theorem foldl_max_self (n : ℕ) (x : ℚ) :
    (List.replicate n x).foldl max x = x := by
  induction n with
  | zero => rfl
  | succ k ih => simp [List.replicate_succ, List.foldl_cons, max_self, ih]

theorem np_mean_replicate (n : ℕ) (hn : n ≠ 0) (c : ℚ) :
    np_mean (List.replicate n c) = c := by
  simp only [np_mean, List.sum_replicate, List.length_replicate, nsmul_eq_mul]
  have hc : (n : ℚ) ≠ 0 := Nat.cast_ne_zero.mpr hn
  field_simp

theorem np_std_sq_replicate (n : ℕ) (hn : n ≠ 0) (c : ℚ) :
    np_std_sq (List.replicate n c) = 0 := by
  simp [np_std_sq, np_mean_replicate n hn, List.map_replicate, sub_self,
    List.sum_replicate]

/-- A benchmark run whose interpreter answers the fixed sample input and
whose clock always reads `c` milliseconds yields the degenerate statistics
record: mean, min, max all `c`, zero variance, total `100·c` ms. -/
theorem benchmark_const_timer (rt : TFLiteRuntime)
    (preprocess : String → ProcInput) (model_path : String)
    (test_texts : List String) (out : List ℚ) (c : ℚ)
    (hinv : rt.invoke model_path (preprocess (test_texts.headD "Test message"))
      = .ok out)
    (htimer : rt.timer model_path = fun _ => c) :
    benchmark_tflite_model rt preprocess model_path test_texts 100 =
      .ok { avg_inference_time_ms := c, min_inference_time_ms := c,
            max_inference_time_ms := c, std_inference_time_ms_sq := 0,
            total_benchmark_time_s := c / 10 } := by
  simp only [benchmark_tflite_model]
  rw [mapM_ok_of_all _
    (fun i => (preprocess (test_texts.headD "Test message"),
      rt.timer model_path i)) _ (fun i _ => by rw [hinv]; rfl)]
  rw [bind_ok_eq]
  have htimes : ((List.range 100).map
      (fun i => (preprocess (test_texts.headD "Test message"),
        rt.timer model_path i))).map Prod.snd = List.replicate 100 c := by
    rw [List.map_map]
    have : (Prod.snd ∘ fun i =>
        (preprocess (test_texts.headD "Test message"),
          rt.timer model_path i)) = fun i : ℕ => c := by
      funext i
      simp [htimer]
    rw [this]
    simp [List.map_const']
  rw [htimes]
  have hrep : List.replicate 100 c = c :: List.replicate 99 c := rfl
  rw [show np_min (List.replicate 100 c) = .ok c by
    rw [hrep]; simp [np_min, foldl_min_self]]
  rw [bind_ok_eq]
  rw [show np_max (List.replicate 100 c) = .ok c by
    rw [hrep]; simp [np_max, foldl_max_self]]
  rw [bind_ok_eq]
  have hmean : np_mean (List.replicate 100 c) = c :=
    np_mean_replicate 100 (by norm_num) c
  have hstd : np_std_sq (List.replicate 100 c) = 0 :=
    np_std_sq_replicate 100 (by norm_num) c
  have htot : (List.replicate 100 c).sum / 1000 = c / 10 := by
    simp only [List.sum_replicate, nsmul_eq_mul]
    push_cast
    ring
  rw [hmean, hstd, htot]
  rfl

/-- Counterexample to C7: a benchmarking failure of the `dynamic` strategy
is NOT caught locally — `evaluate_quantized_models` aborts with the error,
so the sibling `float16` (which evaluates fine on its own) is absent from
any results map and no report can be produced from this run. -/
theorem evaluate_abort_counterexample :
    evaluate_quantized_models rt_bench_fail preprocess0 30 (1, 50)
      [("dynamic", info_dyn), ("float16", info_f16)] ["hi"] [0]
      = .error .runtimeError ∧
    isOkb (evaluate_quantized_models rt_bench_fail preprocess0 30 (1, 50)
      [("float16", info_f16)] ["hi"] [0]) = true := by
  refine ⟨rfl, ?_⟩
  have hb := benchmark_const_timer rt_bench_fail preprocess0
    info_f16.model_path (List.take 10 ["hi"]) [1, 0] 2 rfl rfl
  simp only [evaluate_quantized_models, evaluate_quantized_models_loop]
  rw [hb]
  decide

/-- For any non-empty metrics map the selector returns a method name. -/
theorem select_ok_of_ne_nil (res : List MetricsEntry) (s a : ℚ)
    (h : res ≠ []) :
    ∃ m, select_best_quantization res s a = .ok m := by
  cases hval : res.filter (meets_constraints s a) with
  | nil =>
    cases res with
    | nil => exact absurd rfl h
    | cons x xs =>
      exact ⟨(xs.foldl pick_smaller x).1,
        by simp [select_best_quantization, hval, py_min_by_size]⟩
  | cons v vs =>
    exact ⟨(vs.foldl pick_smaller v).1,
      by simp [select_best_quantization, hval]⟩

/-- Counterexample to C2: in the jointly-infeasible Scenario B the selector
does return the smallest candidate (`int8`), but there is no
`constraints_satisfied` flag anywhere for callers to inspect — the
selector's value is the bare method name and the report summary's keys are
exactly the six fixed ones, which do not include `constraints_satisfied`. -/
theorem no_constraints_flag_counterexample :
    select_best_quantization scenario_b_pct 5 90 = .ok "int8" ∧
    (create_quantization_report scenario_b_pct).summary.map Prod.fst =
      summary_keys ∧
    "constraints_satisfied" ∉
      (create_quantization_report scenario_b_pct).summary.map Prod.fst := by
  refine ⟨by decide, rfl, by decide⟩

/-- C2 (amended): when no candidate meets both constraints the selection
still succeeds and infeasibility is never raised as an exception — for any
non-empty map the selector returns some method — but no
`constraints_satisfied` flag is produced: the selector returns only the
method name and the report summary carries exactly the six fixed keys. -/
theorem select_fallback_no_flag (res : List MetricsEntry) (s a : ℚ)
    (h : res ≠ []) :
    (∃ m, select_best_quantization res s a = .ok m) ∧
    (create_quantization_report res).summary.map Prod.fst = summary_keys := by
  refine ⟨select_ok_of_ne_nil res s a h, ?_⟩
  cases res with
  | nil => rfl
  | cons f r => rfl

/-- Witness for the amended C2 at the Scenario B data. -/
theorem select_fallback_no_flag_witness :
    scenario_b_pct ≠ [] ∧
    ((∃ m, select_best_quantization scenario_b_pct 5 90 = .ok m) ∧
     (create_quantization_report scenario_b_pct).summary.map Prod.fst =
       summary_keys) :=
  ⟨by decide, select_fallback_no_flag scenario_b_pct 5 90 (by decide)⟩

/-- C5 (amended): with zero successful candidates the selection fails with
an uncaught error — Python's `min` over the empty results raises
`ValueError`, the spec's `NoViableArtifact` — and within the selector this
is the only failure mode: any non-empty map selects successfully.  (It is
not, however, the only pipeline-level failure that can reach the caller:
see the counterexample.) -/
theorem select_no_viable_artifact (s a : ℚ) :
    select_best_quantization [] s a = .error .valueError ∧
    ∀ res : List MetricsEntry, res ≠ [] →
      ∃ m, select_best_quantization res s a = .ok m := by
  exact ⟨rfl, fun res h => select_ok_of_ne_nil res s a h⟩

/-- Witness for the amended C5. -/
theorem select_no_viable_artifact_witness :
    select_best_quantization [] 20 (9/10) = .error .valueError ∧
    (∃ m, select_best_quantization scenario_b_pct 20 (9/10) = .ok m) :=
  ⟨(select_no_viable_artifact 20 (9/10)).1,
   (select_no_viable_artifact 20 (9/10)).2 scenario_b_pct (by decide)⟩

/-- Counterexample to C5: a full pipeline run in which all three strategies
convert successfully still fails — with the benchmark's `runtimeError`,
not the empty-selection `ValueError` — because evaluation failures are
uncaught.  So `NoViableArtifact` is not the only pipeline-level failure
that propagates to the caller. -/
theorem pipeline_failure_beyond_selection_counterexample :
    quantize_model_pipeline (fun _ => conv_all_ok) rt_invoke_fail preprocess0
      30 (1, 50) (List.replicate 400 "t") ["msg"] [0] 20
      = .error .runtimeError ∧
    (quantize_all_methods conv_all_ok).length = 3 ∧
    PyErr.runtimeError ≠ PyErr.valueError := by
  exact ⟨rfl, rfl, by decide⟩

/-- The accuracy loop counts argmax-correct predictions over the zipped
pairs, starting from any counter value, when the interpreter and argmax
succeed on every zipped text. -/
theorem accuracy_loop_count (rt : TFLiteRuntime)
    (preprocess : String → ProcInput) (model_path : String)
    (outs : String → List ℚ) (pl : String → ℕ) :
    ∀ (l : List (String × ℤ)) (c : ℕ),
      (∀ p ∈ l, rt.invoke model_path (preprocess p.1) = .ok (outs p.1) ∧
        np_argmax (outs p.1) = .ok (pl p.1)) →
      evaluate_tflite_accuracy_loop rt preprocess model_path l c =
        .ok (c + l.countP (fun p => decide ((pl p.1 : ℤ) = p.2))) := by
  intro l
  induction l with
  | nil => intro c _; simp [evaluate_tflite_accuracy_loop]
  | cons p t ih =>
    intro c hok
    obtain ⟨text, label⟩ := p
    obtain ⟨h1, h2⟩ := hok (text, label) (by simp)
    simp only [evaluate_tflite_accuracy_loop]
    rw [h1, bind_ok_eq, h2, bind_ok_eq]
    rw [ih _ (fun q hq => hok q (by simp [hq]))]
    by_cases hpred : (pl text : ℤ) = label
    · have hd : decide ((pl text : ℤ) = label) = true := decide_eq_true hpred
      simp [List.countP_cons, if_pos hpred, hd]
      omega
    · have hd : decide ((pl text : ℤ) = label) = false := decide_eq_false hpred
      simp [List.countP_cons, if_neg hpred, hd]

/-- C10: accuracy evaluation divides the argmax-correct count over the
zipped (text, label) pairs by the full length of the text list with no
guard — an empty text list is a `ZeroDivisionError`, so a non-empty corpus
is a necessary precondition — and when the label list is shorter only the
zipped pairs are scored (the correct count is bounded by the shorter
length) while the denominator stays the full text-list length. -/
theorem evaluate_tflite_accuracy_spec (rt : TFLiteRuntime)
    (preprocess : String → ProcInput) (model_path : String)
    (test_texts : List String) (test_labels : List ℤ)
    (outs : String → List ℚ) (pl : String → ℕ)
    (hok : ∀ p ∈ test_texts.zip test_labels,
      rt.invoke model_path (preprocess p.1) = .ok (outs p.1) ∧
      np_argmax (outs p.1) = .ok (pl p.1)) :
    (test_texts = [] →
      evaluate_tflite_accuracy rt preprocess model_path test_texts test_labels
        = .error .zeroDivisionError) ∧
    (test_texts ≠ [] →
      evaluate_tflite_accuracy rt preprocess model_path test_texts test_labels
        = .ok (((test_texts.zip test_labels).countP
              (fun p => decide ((pl p.1 : ℤ) = p.2)) : ℚ) /
            (test_texts.length : ℚ))) ∧
    (test_texts.zip test_labels).countP (fun p => decide ((pl p.1 : ℤ) = p.2))
      ≤ min test_texts.length test_labels.length := by
  refine ⟨?_, ?_, ?_⟩
  · intro he
    subst he
    rfl
  · intro hne
    have hlen : (test_texts.length : ℚ) ≠ 0 := by
      simpa [List.length_eq_zero] using hne
    simp only [evaluate_tflite_accuracy]
    rw [accuracy_loop_count rt preprocess model_path outs pl _ 0 hok,
      bind_ok_eq]
    simp [pydiv, hlen]
  · have h1 := List.countP_le_length
      (fun p : String × ℤ => decide ((pl p.1 : ℤ) = p.2))
      (l := test_texts.zip test_labels)
    rwa [List.length_zip] at h1

/-- Witness for C10: three texts but only two labels — only the two zipped
pairs are scored, the denominator stays 3, and the empty-corpus case of the
same evaluator raises `ZeroDivisionError`. -/
theorem evaluate_tflite_accuracy_spec_witness :
    ((["a", "b", "c"] : List String) = [] →
      evaluate_tflite_accuracy rt_acc preprocess0 "m" ["a", "b", "c"] [1, 0]
        = .error .zeroDivisionError) ∧
    ((["a", "b", "c"] : List String) ≠ [] →
      evaluate_tflite_accuracy rt_acc preprocess0 "m" ["a", "b", "c"] [1, 0]
        = .ok ((((["a", "b", "c"] : List String).zip ([1, 0] : List ℤ)).countP
              (fun p => decide (((fun _ => 1 : String → ℕ) p.1 : ℤ) = p.2)) : ℚ) /
            ((["a", "b", "c"] : List String).length : ℚ))) ∧
    ((["a", "b", "c"] : List String).zip ([1, 0] : List ℤ)).countP
        (fun p => decide (((fun _ => 1 : String → ℕ) p.1 : ℤ) = p.2))
      ≤ min (["a", "b", "c"] : List String).length ([1, 0] : List ℤ).length :=
  evaluate_tflite_accuracy_spec rt_acc preprocess0 "m" ["a", "b", "c"] [1, 0]
    (fun _ => [0, 1]) (fun _ => 1) (by decide)

theorem chunksGo_one_map {α : Type} :
    ∀ (fuel : ℕ) (l : List α), l.length ≤ fuel →
      chunksGo 1 fuel l = l.map (fun a => [a]) := by
  intro fuel
  induction fuel with
  | zero =>
    intro l hl
    cases l with
    | nil => rfl
    | cons a t => simp at hl
  | succ f ih =>
    intro l hl
    cases l with
    | nil => rfl
    | cons a t =>
      simp only [chunksGo]
      rw [show (a :: t).take 1 = [a] from rfl,
        show (a :: t).drop 1 = t from rfl]
      rw [ih t (by simp at hl; omega)]
      rfl

theorem chunksGo_flatten {α : Type} (n : ℕ) (hn : 1 ≤ n) :
    ∀ (fuel : ℕ) (l : List α), l.length ≤ fuel →
      (chunksGo n fuel l).flatten = l := by
  intro fuel
  induction fuel with
  | zero =>
    intro l hl
    cases l with
    | nil => rfl
    | cons a t => simp at hl
  | succ f ih =>
    intro l hl
    cases l with
    | nil => rfl
    | cons a t =>
      simp only [chunksGo, List.flatten_cons]
      rw [ih ((a :: t).drop n) (by simp at hl ⊢; omega)]
      exact List.take_append_drop n (a :: t)

theorem pyChunks_flatten {α : Type} (n : ℕ) (hn : 1 ≤ n) (l : List α) :
    (pyChunks n l).flatten = l :=
  chunksGo_flatten n hn l.length l le_rfl

/-- C4 (amended): calibration sampling cannot fail.  The slice
`train_texts[:500]` is the ordering-preserving prefix of length
`min 500 len` — exactly 500 when the corpus is long enough, the whole
corpus otherwise — and `create_representative_dataset` succeeds on it for
every positive batch size, its batches covering exactly the preprocessed
prefix.  No `InsufficientCalibrationData` failure path exists. -/
theorem calibration_prefix_total (train_texts : List String)
    (preprocess : String → ProcInput) (batch_size : ℕ)
    (hb : 1 ≤ batch_size) :
    (calibration_texts train_texts).length = min 500 train_texts.length ∧
    calibration_texts train_texts ++ train_texts.drop 500 = train_texts ∧
    (500 ≤ train_texts.length →
      (calibration_texts train_texts).length = 500) ∧
    ∃ batches,
      create_representative_dataset preprocess (calibration_texts train_texts)
        batch_size = .ok batches ∧
      batches.flatten =
        preprocess_data preprocess (calibration_texts train_texts) := by
  refine ⟨by simp [calibration_texts], ?_, ?_, ?_⟩
  · exact List.take_append_drop 500 train_texts
  · intro h
    simp [calibration_texts, List.length_take]
    omega
  · refine ⟨pyChunks batch_size
      (preprocess_data preprocess (calibration_texts train_texts)), ?_,
      pyChunks_flatten batch_size hb _⟩
    simp [create_representative_dataset, pyChunks,
      Nat.one_le_iff_ne_zero.mp hb]

/-- Witness for the amended C4 at a 2-element corpus with batch size 1. -/
theorem calibration_prefix_total_witness :
    (1 ≤ 1) ∧
    ((calibration_texts ["a", "b"]).length =
        min 500 (["a", "b"] : List String).length ∧
     calibration_texts ["a", "b"] ++ (["a", "b"] : List String).drop 500 =
        ["a", "b"] ∧
     (500 ≤ (["a", "b"] : List String).length →
        (calibration_texts ["a", "b"]).length = 500) ∧
     ∃ batches,
       create_representative_dataset preprocess0 (calibration_texts ["a", "b"])
         1 = .ok batches ∧
       batches.flatten = preprocess_data preprocess0
         (calibration_texts ["a", "b"])) :=
  ⟨by decide, calibration_prefix_total ["a", "b"] preprocess0 1 (by decide)⟩

/-- Counterexample to C4: requesting the 500-item slice from a 400-item
corpus does not fail — it returns the whole corpus (length 400, not an
`InsufficientCalibrationData` error), the representative dataset is built
from it successfully, and the calibration-requiring `int8` strategy is not
omitted: all three strategies appear in the results in catalog order. -/
theorem calibration_oversample_counterexample :
    (calibration_texts corpus400).length = 400 ∧
    calibration_texts corpus400 = corpus400 ∧
    isOkb (create_representative_dataset preprocess0
      (calibration_texts corpus400) 1) = true ∧
    (quantize_all_methods conv_all_ok).map Prod.fst =
      ["dynamic", "float16", "int8"] := by
  refine ⟨?_, ?_, rfl, rfl⟩
  · simp [calibration_texts, corpus400, List.length_take]
  · exact List.take_of_length_le (by simp [corpus400])

/-- A successful interpreter call at the fixed sample input makes the
whole benchmark succeed, with statistics taken over the full per-run times
list `num_runs` long. -/
theorem benchmark_ok_of_invoke (rt : TFLiteRuntime)
    (preprocess : String → ProcInput) (model_path : String)
    (test_texts : List String) (num_runs : ℕ) (out : List ℚ)
    (hn : num_runs ≠ 0)
    (hinv : rt.invoke model_path (preprocess (test_texts.headD "Test message"))
      = .ok out) :
    ∃ t ts, (List.range num_runs).map (rt.timer model_path) = t :: ts ∧
      benchmark_tflite_model rt preprocess model_path test_texts num_runs =
        .ok { avg_inference_time_ms :=
                np_mean ((List.range num_runs).map (rt.timer model_path)),
              min_inference_time_ms := ts.foldl min t,
              max_inference_time_ms := ts.foldl max t,
              std_inference_time_ms_sq :=
                np_std_sq ((List.range num_runs).map (rt.timer model_path)),
              total_benchmark_time_s :=
                ((List.range num_runs).map (rt.timer model_path)).sum / 1000 } := by
  obtain ⟨t, ts, hr⟩ :
      ∃ t ts, (List.range num_runs).map (rt.timer model_path) = t :: ts := by
    cases hx : (List.range num_runs).map (rt.timer model_path) with
    | nil =>
      exfalso
      have := congrArg List.length hx
      simp [List.length_range] at this
      exact hn this
    | cons t ts => exact ⟨t, ts, rfl⟩
  refine ⟨t, ts, hr, ?_⟩
  simp only [benchmark_tflite_model]
  rw [mapM_ok_of_all _
    (fun i => (preprocess (test_texts.headD "Test message"),
      rt.timer model_path i)) _ (fun i _ => by rw [hinv]; rfl)]
  rw [bind_ok_eq]
  have hsnd : ((List.range num_runs).map
      (fun i => (preprocess (test_texts.headD "Test message"),
        rt.timer model_path i))).map Prod.snd =
      (List.range num_runs).map (rt.timer model_path) := by
    rw [List.map_map]
    rfl
  rw [hsnd, hr]
  rw [show np_min (t :: ts) = .ok (ts.foldl min t) from rfl, bind_ok_eq]
  rw [show np_max (t :: ts) = .ok (ts.foldl max t) from rfl, bind_ok_eq]
  rfl

/-- C8: benchmarking preprocesses the first test text once and feeds that
single fixed input to the interpreter for every one of the `num_runs`
(default 100) strictly sequential runs — so the result depends on the
interpreter's behaviour at that one input (and the clock) only — records
one wall-clock millisecond duration per run with no warm-up discard (the
times list has exactly `num_runs` entries), and returns exactly the mean,
the minimum, the maximum, and the standard deviation (stored squared) of
those per-run times, plus their total. -/
theorem benchmark_single_input_exact_stats (rt : TFLiteRuntime)
    (preprocess : String → ProcInput) (model_path : String)
    (test_texts : List String) (num_runs : ℕ) (out : List ℚ)
    (hn : num_runs ≠ 0)
    (hinv : rt.invoke model_path (preprocess (test_texts.headD "Test message"))
      = .ok out) :
    (∀ rt2 : TFLiteRuntime,
      rt2.invoke model_path (preprocess (test_texts.headD "Test message")) =
        rt.invoke model_path (preprocess (test_texts.headD "Test message")) →
      rt2.timer model_path = rt.timer model_path →
      benchmark_tflite_model rt2 preprocess model_path test_texts num_runs =
        benchmark_tflite_model rt preprocess model_path test_texts num_runs) ∧
    ∃ stats,
      benchmark_tflite_model rt preprocess model_path test_texts num_runs =
        .ok stats ∧
      ((List.range num_runs).map (rt.timer model_path)).length = num_runs ∧
      stats.avg_inference_time_ms =
        ((List.range num_runs).map (rt.timer model_path)).sum / num_runs ∧
      stats.min_inference_time_ms ∈
        (List.range num_runs).map (rt.timer model_path) ∧
      (∀ q ∈ (List.range num_runs).map (rt.timer model_path),
        stats.min_inference_time_ms ≤ q) ∧
      stats.max_inference_time_ms ∈
        (List.range num_runs).map (rt.timer model_path) ∧
      (∀ q ∈ (List.range num_runs).map (rt.timer model_path),
        q ≤ stats.max_inference_time_ms) ∧
      stats.std_inference_time_ms_sq =
        (((List.range num_runs).map (rt.timer model_path)).map
          (fun x => (x - stats.avg_inference_time_ms) ^ 2)).sum / num_runs ∧
      stats.total_benchmark_time_s =
        ((List.range num_runs).map (rt.timer model_path)).sum / 1000 := by
  constructor
  · intro rt2 h1 h2
    have hfun : (fun i : ℕ => do
        let _ ← rt2.invoke model_path
          (preprocess (test_texts.headD "Test message"))
        pure (preprocess (test_texts.headD "Test message"),
          rt2.timer model_path i)) =
      (fun i : ℕ => do
        let _ ← rt.invoke model_path
          (preprocess (test_texts.headD "Test message"))
        pure (preprocess (test_texts.headD "Test message"),
          rt.timer model_path i)) := by
      funext i
      rw [h1, congrFun h2 i]
    simp only [benchmark_tflite_model]
    rw [hfun]
  · obtain ⟨t, ts, hr, hbench⟩ := benchmark_ok_of_invoke rt preprocess
      model_path test_texts num_runs out hn hinv
    have hlen : ((List.range num_runs).map (rt.timer model_path)).length =
        num_runs := by simp [List.length_range]
    refine ⟨_, hbench, hlen, ?_, ?_, ?_, ?_, ?_, ?_, ?_⟩
    · show np_mean ((List.range num_runs).map (rt.timer model_path)) = _
      rw [np_mean, hlen]
    · show ts.foldl min t ∈ (List.range num_runs).map (rt.timer model_path)
      rw [hr]
      exact foldl_min_mem ts t
    · intro q hq
      rw [hr] at hq
      exact foldl_min_le ts t q hq
    · show ts.foldl max t ∈ (List.range num_runs).map (rt.timer model_path)
      rw [hr]
      exact foldl_max_mem ts t
    · intro q hq
      rw [hr] at hq
      exact foldl_max_le ts t q hq
    · show np_std_sq ((List.range num_runs).map (rt.timer model_path)) = _
      rw [np_std_sq, hlen]
    · rfl

/-- Witness for C8 at a concrete runtime with two timed runs. -/
theorem benchmark_single_input_exact_stats_witness :
    (2 ≠ 0) ∧
    ((∀ rt2 : TFLiteRuntime,
      rt2.invoke "m" (preprocess0 ((["t"] : List String).headD "Test message")) =
        rt_acc.invoke "m" (preprocess0 ((["t"] : List String).headD "Test message")) →
      rt2.timer "m" = rt_acc.timer "m" →
      benchmark_tflite_model rt2 preprocess0 "m" ["t"] 2 =
        benchmark_tflite_model rt_acc preprocess0 "m" ["t"] 2) ∧
    ∃ stats,
      benchmark_tflite_model rt_acc preprocess0 "m" ["t"] 2 = .ok stats ∧
      ((List.range 2).map (rt_acc.timer "m")).length = 2 ∧
      stats.avg_inference_time_ms =
        ((List.range 2).map (rt_acc.timer "m")).sum / 2 ∧
      stats.min_inference_time_ms ∈ (List.range 2).map (rt_acc.timer "m") ∧
      (∀ q ∈ (List.range 2).map (rt_acc.timer "m"),
        stats.min_inference_time_ms ≤ q) ∧
      stats.max_inference_time_ms ∈ (List.range 2).map (rt_acc.timer "m") ∧
      (∀ q ∈ (List.range 2).map (rt_acc.timer "m"),
        q ≤ stats.max_inference_time_ms) ∧
      stats.std_inference_time_ms_sq =
        (((List.range 2).map (rt_acc.timer "m")).map
          (fun x => (x - stats.avg_inference_time_ms) ^ 2)).sum / 2 ∧
      stats.total_benchmark_time_s =
        ((List.range 2).map (rt_acc.timer "m")).sum / 1000) :=
  ⟨by decide, benchmark_single_input_exact_stats rt_acc preprocess0 "m" ["t"]
    2 [0, 1] (by decide) rfl⟩

theorem pydiv_ok {a b c : ℚ} (h : pydiv a b = .ok c) : b ≠ 0 ∧ c = a / b := by
  by_cases hb : b = 0
  · simp [pydiv, hb] at h
  · simp [pydiv, hb] at h
    exact ⟨hb, h.symm⟩

theorem evaluate_loop_baseline (rt : TFLiteRuntime)
    (preprocess : String → ProcInput) (cs oa oms : ℚ)
    (texts : List String) (labels : List ℤ) :
    ∀ (models : List (String × TFLiteModelInfo)) (acc res : List MetricsEntry),
      (∀ p ∈ acc, baseline_consistent cs oa oms p) →
      evaluate_quantized_models_loop rt preprocess cs oa oms texts labels
        models acc = .ok res →
      ∀ p ∈ res, baseline_consistent cs oa oms p := by
  intro models
  induction models with
  | nil =>
    intro acc res hacc h
    simp only [evaluate_quantized_models_loop] at h
    obtain rfl : acc = res := by simpa using h
    exact hacc
  | cons mi rest ih =>
    intro acc res hacc h
    obtain ⟨method, model_info⟩ := mi
    simp only [evaluate_quantized_models_loop] at h
    cases hb : benchmark_tflite_model rt preprocess model_info.model_path
        (texts.take 10) with
    | error e => rw [hb, bind_error_eq] at h; exact Except.noConfusion h
    | ok bench =>
      rw [hb, bind_ok_eq] at h
      cases ha : evaluate_tflite_accuracy rt preprocess model_info.model_path
          texts labels with
      | error e => rw [ha, bind_error_eq] at h; exact Except.noConfusion h
      | ok qacc =>
        rw [ha, bind_ok_eq] at h
        cases hd1 : pydiv cs model_info.size_mb with
        | error e => rw [hd1, bind_error_eq] at h; exact Except.noConfusion h
        | ok sr =>
          rw [hd1, bind_ok_eq] at h
          cases hd2 : pydiv qacc oa with
          | error e => rw [hd2, bind_error_eq] at h; exact Except.noConfusion h
          | ok ar =>
            rw [hd2, bind_ok_eq] at h
            cases hd3 : pydiv oms bench.avg_inference_time_ms with
            | error e =>
              rw [hd3, bind_error_eq] at h
              exact Except.noConfusion h
            | ok sp =>
              rw [hd3, bind_ok_eq] at h
              refine ih _ res ?_ h
              intro p hp
              rcases List.mem_append.mp hp with hp1 | hp2
              · exact hacc p hp1
              · obtain ⟨hs1, he1⟩ := pydiv_ok hd1
                obtain ⟨-, he2⟩ := pydiv_ok hd2
                obtain ⟨-, he3⟩ := pydiv_ok hd3
                have hpe : p = (method,
                    { original_size_mb := cs,
                      quantized_size_mb := model_info.size_mb,
                      size_reduction_ratio := sr,
                      original_accuracy := oa,
                      quantized_accuracy := qacc,
                      accuracy_retention := ar,
                      original_inference_ms := oms,
                      quantized_inference_ms := bench.avg_inference_time_ms,
                      speedup_ratio := sp,
                      quantization_method := method }) := by
                  simpa using hp2
                subst hpe
                exact ⟨rfl, rfl, rfl, hs1, by simpa using he1,
                  by simpa using he2, by simpa using he3⟩

/-- C3: whenever `evaluate_quantized_models` succeeds, every strategy's
metrics satisfy exactly `size_reduction_ratio = baseline_size /
quantized_size_mb`, `accuracy_retention = quantized_accuracy /
baseline_accuracy` and `speedup_ratio = baseline_latency /
quantized_inference_ms`, where the baseline size, accuracy and latency
(bound once before the loop from the classifier's own measurements) are
stored identically in every entry. -/
theorem evaluate_quantized_models_ratios (rt : TFLiteRuntime)
    (preprocess : String → ProcInput) (calc_model_size : ℚ)
    (baseline_eval : ℚ × ℚ)
    (quantized_models : List (String × TFLiteModelInfo))
    (test_texts : List String) (test_labels : List ℤ)
    (res : List MetricsEntry)
    (h : evaluate_quantized_models rt preprocess calc_model_size
      baseline_eval quantized_models test_texts test_labels = .ok res) :
    ∀ p ∈ res,
      baseline_consistent calc_model_size baseline_eval.1 baseline_eval.2 p :=
  evaluate_loop_baseline rt preprocess calc_model_size baseline_eval.1
    baseline_eval.2 test_texts test_labels quantized_models [] res
    (by simp) h

/-- A fully evaluated one-strategy run: baseline size 30MB, baseline
accuracy 1, baseline latency 50ms, candidate 6MB with constant 2ms runs. -/
theorem c3_concrete_run :
    evaluate_quantized_models rt_const2 preprocess0 30 (1, 50)
      [("dynamic", info6)] ["a"] [1] = .ok [("dynamic", c3_metrics)] := by
  have hb := benchmark_const_timer rt_const2 preprocess0 info6.model_path
    (List.take 10 ["a"]) [0, 1] 2 rfl rfl
  simp only [evaluate_quantized_models, evaluate_quantized_models_loop]
  rw [hb]
  rfl

/-- Witness for C3 at the concrete run above. -/
theorem evaluate_quantized_models_ratios_witness :
    baseline_consistent 30 1 50 ("dynamic", c3_metrics) :=
  evaluate_quantized_models_ratios rt_const2 preprocess0 30 (1, 50)
    [("dynamic", info6)] ["a"] [1] [("dynamic", c3_metrics)] c3_concrete_run
    ("dynamic", c3_metrics) (by simp)
